import Mathlib

/-!
Verification development for the aws-opensearch-navigator repository.

The embedding models the query-translation and execution pipeline:
`OpenSearchService.buildDsl`, `OpenSearchService.flattenMapping`,
`OpenSearchService.getMapping`, `OpenSearchService.executeRequest`
(services/opensearchService.ts), and the server handlers `POST /api/proxy`
and `POST /api/aws-discovery` (server.ts).  JavaScript machine numbers that
the code merely passes through (latitude, longitude, radius, filter values)
are modelled as exact rationals; the code performs no arithmetic on them.
-/

namespace Navigator

/-! ## JavaScript string primitives used by the source -/

/-- The WhiteSpace and LineTerminator set used by `String.prototype.trim`
and by JS `Number(string)` conversion. -/
def isJsWhitespace (c : Char) : Bool :=
  c = ' ' || c = '\t' || c = '\n' || c = '\r' ||
  c = Char.ofNat 0x0B || c = Char.ofNat 0x0C ||
  c = Char.ofNat 0xA0 || c = Char.ofNat 0xFEFF ||
  c = Char.ofNat 0x1680 ||
  (0x2000 ≤ c.toNat && c.toNat ≤ 0x200A) ||
  c = Char.ofNat 0x2028 || c = Char.ofNat 0x2029 ||
  c = Char.ofNat 0x202F || c = Char.ofNat 0x205F || c = Char.ofNat 0x3000

/-- JS `s.trim()`. -/
def jsTrim (s : String) : String :=
  ⟨((s.toList.dropWhile isJsWhitespace).reverse.dropWhile isJsWhitespace).reverse⟩

/-- JS `haystack.includes(needle)` (substring containment). -/
def jsIncludes (haystack needle : String) : Bool :=
  (List.range (haystack.length + 1)).any fun i =>
    ((haystack.toList.drop i).take needle.length) = needle.toList

/-! ## JS `Number(string)` conversion

`buildDsl` coerces a filter's textual value with
`!isNaN(Number(f.value)) && f.value.trim() !== '' ? Number(f.value) : f.value`.
`jsStringToNumber` returns `none` exactly when `Number(s)` is `NaN`; finite
values are exact rationals (float64 rounding is not modelled — it never
changes whether a string parses, only the rounded value). -/

inductive JsNum where
  | finite (q : ℚ)
  | posInf
  | negInf
  deriving DecidableEq, Repr

/-- Digit value in a given base (hex accepts both cases). -/
def digitVal (base : Nat) (c : Char) : Option Nat :=
  let v :=
    if '0' ≤ c ∧ c ≤ '9' then some (c.toNat - '0'.toNat)
    else if 'a' ≤ c ∧ c ≤ 'f' then some (c.toNat - 'a'.toNat + 10)
    else if 'A' ≤ c ∧ c ≤ 'F' then some (c.toNat - 'A'.toNat + 10)
    else none
  match v with
  | some d => if d < base then some d else none
  | none => none

/-- Consume leading digits in `base`; returns (value, digit count, rest). -/
def takeDigits (base : Nat) : List Char → Nat → Nat → Nat × Nat × List Char
  | [], v, n => (v, n, [])
  | c :: cs, v, n =>
    match digitVal base c with
    | some d => takeDigits base cs (v * base + d) (n + 1)
    | none => (v, n, c :: cs)

/-- Parse an optional trailing exponent part (`e`/`E`, optional sign, digits);
`[]` means "no exponent" and yields 0; anything else malformed yields none. -/
def parseExpPart : List Char → Option Int
  | [] => some 0
  | c :: cs =>
    if c = 'e' ∨ c = 'E' then
      let (sign, cs') : Int × List Char :=
        match cs with
        | '+' :: r => (1, r)
        | '-' :: r => (-1, r)
        | r => (1, r)
      let (v, n, rest) := takeDigits 10 cs' 0 0
      if 0 < n ∧ rest = [] then some (sign * v) else none
    else none

/-- The rational `sign * (ip·10^n2 + fp) · 10^e / 10^n2` denoted by a decimal
literal with integer part `ip`, `n2` fraction digits with value `fp`, and
exponent `e`.  Built from a single `mkRat` over machine-integer arithmetic. -/
def decToRat (neg : Bool) (ip fp n2 : Nat) (e : Int) : ℚ :=
  let mant : Int := (if neg then -1 else 1) * (ip * 10 ^ n2 + fp)
  if 0 ≤ e then mkRat (mant * 10 ^ e.toNat) (10 ^ n2)
  else mkRat mant (10 ^ n2 * 10 ^ (-e).toNat)

/-- Parse an unsigned decimal literal (JS StrUnsignedDecimalLiteral without
the `Infinity` case); must consume the whole input. -/
def parseUnsignedDec (neg : Bool) (cs : List Char) : Option ℚ :=
  let (ip, n1, r1) := takeDigits 10 cs 0 0
  match r1 with
  | '.' :: r2 =>
    let (fp, n2, r3) := takeDigits 10 r2 0 0
    if n1 = 0 ∧ n2 = 0 then none
    else
      match parseExpPart r3 with
      | some e => some (decToRat neg ip fp n2 e)
      | none => none
  | _ =>
    if n1 = 0 then none
    else
      match parseExpPart r1 with
      | some e => some (decToRat neg ip 0 0 e)
      | none => none

/-- Parse a signed decimal literal or `Infinity`. -/
def parseSignedDec (cs : List Char) : Option JsNum :=
  let (neg, r) : Bool × List Char :=
    match cs with
    | '+' :: r => (false, r)
    | '-' :: r => (true, r)
    | r => (false, r)
  if r = "Infinity".toList then some (if neg then .negInf else .posInf)
  else (parseUnsignedDec neg r).map .finite

/-- JS `Number(s)` on strings: `none` is `NaN`. -/
def jsStringToNumber (s : String) : Option JsNum :=
  let cs := (jsTrim s).toList
  match cs with
  | [] => some (.finite 0)
  | '0' :: x :: rest =>
    if x = 'x' ∨ x = 'X' then
      let (v, n, r) := takeDigits 16 rest 0 0
      if 0 < n ∧ r = [] then some (.finite v) else none
    else if x = 'o' ∨ x = 'O' then
      let (v, n, r) := takeDigits 8 rest 0 0
      if 0 < n ∧ r = [] then some (.finite v) else none
    else if x = 'b' ∨ x = 'B' then
      let (v, n, r) := takeDigits 2 rest 0 0
      if 0 < n ∧ r = [] then some (.finite v) else none
    else parseSignedDec cs
  | _ => parseSignedDec cs

/-! ## The value type flowing into compiled clauses -/

/-- A JSON-ish literal as embedded in a compiled clause: the coerced filter
value is either a string or a JS number. -/
inductive JsonVal where
  | str (s : String)
  | num (q : ℚ)
  | inf (neg : Bool)
  deriving DecidableEq, Repr

def JsonVal.isNumeric : JsonVal → Bool
  | .num _ => true
  | .inf _ => true
  | .str _ => false

/-- The coercion on line `const val = !isNaN(Number(f.value)) && f.value.trim() !== '' ? Number(f.value) : f.value`. -/
def coerceValue (v : String) : JsonVal :=
  match jsStringToNumber v with
  | some n =>
    if jsTrim v ≠ "" then
      match n with
      | .finite q => .num q
      | .posInf => .inf false
      | .negInf => .inf true
    else .str v
  | none => .str v

/-- Left-pad a digit string with zeros to the given width. -/
def padZeros (s : String) (width : Nat) : String :=
  ⟨List.replicate (width - s.length) '0' ++ s.toList⟩

/-- Rendering a rational the way JS stringifies the number in a template
literal, for values with a finite decimal expansion (the only values
`coerceValue` can produce).  Exponential printing of extreme magnitudes is
not modelled. -/
def jsRatToString (q : ℚ) : String :=
  let sign := if q.num < 0 then "-" else ""
  let n := q.num.natAbs
  let d := q.den
  if d = 1 then sign ++ toString n
  else
    match (List.range 21).find? (fun k => (n * 10 ^ (k + 1)) % d = 0) with
    | some k =>
      let scaled := n * 10 ^ (k + 1) / d
      let ipart := scaled / 10 ^ (k + 1)
      let fpart := scaled % 10 ^ (k + 1)
      sign ++ toString ipart ++ "." ++ padZeros (toString fpart) (k + 1)
    | none => sign ++ toString n ++ "/" ++ toString d

/-- JS template interpolation `${val}` of a coerced value. -/
def jsValToString : JsonVal → String
  | .str s => s
  | .num q => jsRatToString q
  | .inf neg => if neg then "-Infinity" else "Infinity"

/-! ## Data model (src/types.ts) -/

inductive AuthType where
  | profile
  | manual
  deriving DecidableEq, Repr

/-- Structure `OpenSearchConfig` from src/types.ts. -/
structure OpenSearchConfig where
  nodes : List String
  region : String
  authType : AuthType
  accessKey : String
  secretKey : String
  sessionToken : Option String
  profile : Option String
  index : String
  useDemoMode : Bool
  proxyUrl : Option String
  deriving DecidableEq, Repr

inductive GeoUnit where
  | km
  | mi
  deriving DecidableEq, Repr

def GeoUnit.render : GeoUnit → String
  | .km => "km"
  | .mi => "mi"

/-- Structure `GeoFilterState` from src/types.ts; the numeric fields are carried
exactly (the compiler only passes them through). -/
structure GeoFilterState where
  enabled : Bool
  latitude : ℚ
  longitude : ℚ
  radius : ℚ
  unit : GeoUnit
  geoField : String
  deriving DecidableEq, Repr

inductive FilterOperator where
  | eq
  | neq
  | gt
  | lt
  | gte
  | lte
  | contains
  | existsOp
  deriving DecidableEq, Repr

/-- The operator's literal name, used as the range-clause key. -/
def FilterOperator.render : FilterOperator → String
  | .eq => "eq"
  | .neq => "neq"
  | .gt => "gt"
  | .lt => "lt"
  | .gte => "gte"
  | .lte => "lte"
  | .contains => "contains"
  | .existsOp => "exists"

/-- Structure `FieldFilter` from src/types.ts. -/
structure FieldFilter where
  id : String
  field : String
  operator : FilterOperator
  value : String
  deriving DecidableEq, Repr

/-- Structure `SearchFilters` from src/types.ts (`from` is a reserved word in Lean,
rendered `from_`). -/
structure SearchFilters where
  query : String
  geo : GeoFilterState
  fieldFilters : List FieldFilter
  from_ : Int
  size : Int
  deriving DecidableEq, Repr

/-! ## Compiled query document (`OpenSearchService.buildDsl`) -/

/-- One engine clause as constructed by `buildDsl`. -/
inductive Clause where
  /-- Clause `{ multi_match: { query, fields: ["name^2","description","metadata.*","*"] } }`. -/
  | multiMatch (query : String) (fields : List String)
  /-- Clause `{ match_all: {} }`. -/
  | matchAll
  /-- Clause `{ geo_distance: { distance, [geoField]: { lat, lon } } }`. -/
  | geoDistance (distance : String) (field : String) (lat lon : ℚ)
  /-- Clause `{ match_phrase: { [field]: val } }`. -/
  | matchPhrase (field : String) (val : JsonVal)
  /-- Clause `{ query_string: { default_field: field, query } }`. -/
  | queryString (defaultField : String) (query : String)
  /-- Clause `{ range: { [field]: { [op]: val } } }`. -/
  | range (field : String) (op : String) (val : JsonVal)
  /-- Clause `{ exists: { field } }`. -/
  | existsField (field : String)
  deriving DecidableEq, Repr

def Clause.isMatchPhrase : Clause → Bool
  | .matchPhrase _ _ => true
  | _ => false

/-- The three clause buckets of the compiled `bool` query. -/
structure BoolQuery where
  must : List Clause
  filter : List Clause
  mustNot : List Clause
  deriving DecidableEq, Repr

/-- A sort entry `{ [field]: { order } }`. -/
structure SortSpec where
  field : String
  order : String
  deriving DecidableEq, Repr

/-- The document returned by `buildDsl`. -/
structure SearchDsl where
  from_ : Int
  size : Int
  query : BoolQuery
  sort : List SortSpec
  deriving DecidableEq, Repr

/-- One iteration of the `filters.fieldFilters.forEach` switch in
`buildDsl`: pushes the filter's clause onto the bucket its operator
selects. -/
def applyFieldFilter (acc : BoolQuery) (f : FieldFilter) : BoolQuery :=
  let val := coerceValue f.value
  match f.operator with
  | .eq => { acc with must := acc.must ++ [.matchPhrase f.field val] }
  | .neq => { acc with mustNot := acc.mustNot ++ [.matchPhrase f.field val] }
  | .contains =>
    { acc with must := acc.must ++ [.queryString f.field ("*" ++ jsValToString val ++ "*")] }
  | .gt => { acc with filter := acc.filter ++ [.range f.field "gt" val] }
  | .gte => { acc with filter := acc.filter ++ [.range f.field "gte" val] }
  | .lt => { acc with filter := acc.filter ++ [.range f.field "lt" val] }
  | .lte => { acc with filter := acc.filter ++ [.range f.field "lte" val] }
  | .existsOp => { acc with filter := acc.filter ++ [.existsField f.field] }

/-- Function `OpenSearchService.buildDsl` (services/opensearchService.ts).  The
`config` argument is accepted but unused, exactly as in the source. -/
def buildDsl (filters : SearchFilters) (config : OpenSearchConfig) : SearchDsl :=
  let _ := config
  let must : List Clause :=
    if jsTrim filters.query ≠ "" then
      [.multiMatch filters.query ["name^2", "description", "metadata.*", "*"]]
    else
      [.matchAll]
  let filter : List Clause :=
    if filters.geo.enabled then
      let geoField := if filters.geo.geoField = "" then "location" else filters.geo.geoField
      [.geoDistance (jsRatToString filters.geo.radius ++ filters.geo.unit.render)
        geoField filters.geo.latitude filters.geo.longitude]
    else []
  let buckets := filters.fieldFilters.foldl applyFieldFilter
    { must := must, filter := filter, mustNot := [] }
  { from_ := filters.from_
    size := filters.size
    query := buckets
    sort := [⟨"_score", "desc"⟩, ⟨"_doc", "desc"⟩] }

/-! ### Bucket characterization of the field-filter loop -/

/-- Clauses a single field filter pushes onto `must`. -/
def mustContrib (f : FieldFilter) : List Clause :=
  match f.operator with
  | .eq => [.matchPhrase f.field (coerceValue f.value)]
  | .contains => [.queryString f.field ("*" ++ jsValToString (coerceValue f.value) ++ "*")]
  | _ => []

/-- Clauses a single field filter pushes onto `filter`. -/
def filterContrib (f : FieldFilter) : List Clause :=
  match f.operator with
  | .gt => [.range f.field "gt" (coerceValue f.value)]
  | .gte => [.range f.field "gte" (coerceValue f.value)]
  | .lt => [.range f.field "lt" (coerceValue f.value)]
  | .lte => [.range f.field "lte" (coerceValue f.value)]
  | .existsOp => [.existsField f.field]
  | _ => []

/-- Clauses a single field filter pushes onto `must_not`. -/
def mustNotContrib (f : FieldFilter) : List Clause :=
  match f.operator with
  | .neq => [.matchPhrase f.field (coerceValue f.value)]
  | _ => []

theorem applyFieldFilter_buckets (acc : BoolQuery) (f : FieldFilter) :
    applyFieldFilter acc f =
      ⟨acc.must ++ mustContrib f, acc.filter ++ filterContrib f,
        acc.mustNot ++ mustNotContrib f⟩ := by
  cases h : f.operator <;>
    simp [applyFieldFilter, mustContrib, filterContrib, mustNotContrib, h]

theorem foldl_applyFieldFilter (l : List FieldFilter) (acc : BoolQuery) :
    l.foldl applyFieldFilter acc =
      ⟨acc.must ++ l.flatMap mustContrib, acc.filter ++ l.flatMap filterContrib,
        acc.mustNot ++ l.flatMap mustNotContrib⟩ := by
  induction l generalizing acc with
  | nil => simp
  | cons f t ih =>
    simp only [List.foldl_cons, List.flatMap_cons, ih, applyFieldFilter_buckets,
      List.append_assoc]

/-- The three buckets of a compiled query, in closed form. -/
theorem buildDsl_query (filters : SearchFilters) (config : OpenSearchConfig) :
    (buildDsl filters config).query =
      ⟨(if jsTrim filters.query ≠ "" then
          [.multiMatch filters.query ["name^2", "description", "metadata.*", "*"]]
        else [.matchAll]) ++ filters.fieldFilters.flatMap mustContrib,
       (if filters.geo.enabled then
          [.geoDistance (jsRatToString filters.geo.radius ++ filters.geo.unit.render)
            (if filters.geo.geoField = "" then "location" else filters.geo.geoField)
            filters.geo.latitude filters.geo.longitude]
        else []) ++ filters.fieldFilters.flatMap filterContrib,
       filters.fieldFilters.flatMap mustNotContrib⟩ := by
  simp only [buildDsl, foldl_applyFieldFilter, List.nil_append]

/-- No clause a field filter can put in the non-scoring `filter` bucket is a
phrase-equality clause. -/
theorem filterContrib_not_matchPhrase (f : FieldFilter) (c : Clause)
    (hc : c ∈ filterContrib f) : c.isMatchPhrase = false := by
  cases h : f.operator <;>
    simp [filterContrib, h] at hc <;> simp [hc, Clause.isMatchPhrase]

/-- C1: For every field filter with operator `eq`, `buildDsl` adds a
phrase-equality (`match_phrase`) clause on the filter's field to the `must`
bucket and never to the non-scoring `filter` bucket; a filter with `neq`
adds a clause of the same shape to `must_not`. -/
theorem buildDsl_eq_must_neq_mustNot (filters : SearchFilters)
    (config : OpenSearchConfig) (f : FieldFilter) (hf : f ∈ filters.fieldFilters) :
    (f.operator = .eq →
      Clause.matchPhrase f.field (coerceValue f.value) ∈ (buildDsl filters config).query.must) ∧
    (f.operator = .neq →
      Clause.matchPhrase f.field (coerceValue f.value) ∈ (buildDsl filters config).query.mustNot) ∧
    (∀ c ∈ (buildDsl filters config).query.filter, c.isMatchPhrase = false) := by
  rw [buildDsl_query]
  refine ⟨fun hop => ?_, fun hop => ?_, fun c hc => ?_⟩
  · exact List.mem_append_right _ (List.mem_flatMap.mpr ⟨f, hf, by simp [mustContrib, hop]⟩)
  · exact List.mem_flatMap.mpr ⟨f, hf, by simp [mustNotContrib, hop]⟩
  · rcases List.mem_append.mp hc with hgeo | hfil
    · split at hgeo
      · simp only [List.mem_singleton] at hgeo
        simp [hgeo, Clause.isMatchPhrase]
      · simp at hgeo
    · rcases List.mem_flatMap.mp hfil with ⟨g, _, hg⟩
      exact filterContrib_not_matchPhrase g c hg

/-- C1 witness: a concrete filter state exercising the theorem. -/
theorem buildDsl_eq_must_neq_mustNot_witness :
    let geoOff : GeoFilterState := ⟨false, 34, -118, 50, .km, "location"⟩
    let cfg : OpenSearchConfig :=
      ⟨["http://localhost:9200"], "us-east-1", .profile, "", "", none, some "default",
        "logs-v1", false, some "/api/proxy"⟩
    let f : FieldFilter := ⟨"1", "status", .eq, "ERROR"⟩
    let fs : SearchFilters := ⟨"", geoOff, [f], 0, 20⟩
    (f.operator = .eq →
      Clause.matchPhrase f.field (coerceValue f.value) ∈ (buildDsl fs cfg).query.must) ∧
    (f.operator = .neq →
      Clause.matchPhrase f.field (coerceValue f.value) ∈ (buildDsl fs cfg).query.mustNot) ∧
    (∀ c ∈ (buildDsl fs cfg).query.filter, c.isMatchPhrase = false) :=
  buildDsl_eq_must_neq_mustNot _ _ _ (by decide)

/-- C5: For every filter state whose free-text query is empty or
whitespace-only, the compiled query's `must` list contains the
match-everything clause and in particular is non-empty. -/
theorem buildDsl_empty_query_matchAll (filters : SearchFilters)
    (config : OpenSearchConfig) (h : jsTrim filters.query = "") :
    Clause.matchAll ∈ (buildDsl filters config).query.must ∧
    (buildDsl filters config).query.must ≠ [] := by
  rw [buildDsl_query]
  have hmem : Clause.matchAll ∈
      (if jsTrim filters.query ≠ "" then
        [Clause.multiMatch filters.query ["name^2", "description", "metadata.*", "*"]]
      else [Clause.matchAll]) := by
    simp [h]
  exact ⟨List.mem_append_left _ hmem, List.ne_nil_of_mem (List.mem_append_left _ hmem)⟩

/-- C5 witness: the whitespace-only query `"  "`. -/
theorem buildDsl_empty_query_matchAll_witness :
    let geoOff : GeoFilterState := ⟨false, 34, -118, 50, .km, "location"⟩
    let cfg : OpenSearchConfig :=
      ⟨["http://localhost:9200"], "us-east-1", .manual, "AK", "SK", none, none,
        "logs-v1", false, none⟩
    let fs : SearchFilters := ⟨"  ", geoOff, [], 0, 20⟩
    Clause.matchAll ∈ (buildDsl fs cfg).query.must ∧
    (buildDsl fs cfg).query.must ≠ [] :=
  buildDsl_empty_query_matchAll _ _ (by decide)

/-- C6: the compiler coerces a filter value to a numeric literal exactly
when the whole (trimmed-nonempty) string parses as a JS number; concretely,
an `eq` filter on value `"42"` compiles to a clause carrying the number 42
while `"42abc"` compiles to a clause carrying the string `"42abc"`. -/
theorem buildDsl_numeric_coercion :
    (∀ config : OpenSearchConfig,
      (buildDsl ⟨"", ⟨false, 34, -118, 50, .km, "location"⟩,
          [⟨"1", "age", .eq, "42"⟩], 0, 20⟩ config).query.must =
        [Clause.matchAll, Clause.matchPhrase "age" (.num 42)]) ∧
    (∀ config : OpenSearchConfig,
      (buildDsl ⟨"", ⟨false, 34, -118, 50, .km, "location"⟩,
          [⟨"1", "age", .eq, "42abc"⟩], 0, 20⟩ config).query.must =
        [Clause.matchAll, Clause.matchPhrase "age" (.str "42abc")]) ∧
    (∀ v : String,
      (coerceValue v).isNumeric = true ↔
        (jsTrim v ≠ "" ∧ (jsStringToNumber v).isSome = true)) := by
  refine ⟨fun config => ?_, fun config => ?_, fun v => ?_⟩
  · rw [buildDsl_query]; decide
  · rw [buildDsl_query]; decide
  · unfold coerceValue
    cases hn : jsStringToNumber v with
    | none => simp [JsonVal.isNumeric, hn]
    | some n =>
      by_cases ht : jsTrim v = ""
      · simp [JsonVal.isNumeric, ht]
      · cases n <;> simp [JsonVal.isNumeric, ht]

/-- C7: For every filter state and connection profile, the compiled sort is
the deterministic two-level specification: relevance score descending
first, then the stable `_doc` tiebreak. -/
theorem buildDsl_sort_two_level (filters : SearchFilters)
    (config : OpenSearchConfig) :
    (buildDsl filters config).sort =
      [⟨"_score", "desc"⟩, ⟨"_doc", "desc"⟩] := rfl

/-! ## Mapping schema and `OpenSearchService.flattenMapping` -/

/-- A node of the engine's `_mapping` schema as the flattener consumes it: a
node may carry a nested `properties` object (container) and/or a declared
`type`.  `properties` is `some` when present (objects are truthy in the
source's `if (prop.properties)` test). -/
inductive JProp where
  | mk (properties : Option (List (String × JProp))) (ty : Option String)

/-- Structure `FieldDefinition` from src/types.ts; `type` is `prop.type` and may be
absent at runtime. -/
structure FieldDefinition where
  path : String
  type : Option String
  deriving DecidableEq, Repr

/-- Function `OpenSearchService.flattenMapping(properties, prefix)`: walk the keys in
document order; recurse into containers, emit a definition for every
non-container node, with `path = prefix ? `${prefix}.${key}` : key`. -/
def flattenMapping : List (String × JProp) → String → List FieldDefinition
  | [], _ => []
  | (key, .mk props ty) :: rest, pfx =>
    let path := if pfx = "" then key else pfx ++ "." ++ key
    (match props with
     | some children => flattenMapping children path
     | none => [⟨path, ty⟩]) ++ flattenMapping rest pfx

/-- Modelled from the spec: the leaves of a schema, each with its full key
ancestry, in traversal order.  Used to state what the flattener should
emit. -/
def leavesSpec : List (String × JProp) → List (List String × Option String)
  | [] => []
  | (key, .mk props ty) :: rest =>
    (match props with
     | some children => (leavesSpec children).map (fun p => (key :: p.1, p.2))
     | none => [([key], ty)]) ++ leavesSpec rest

/-- The source's path constructor: `prefix ? `${prefix}.${key}` : key`. -/
def joinDot (a b : String) : String :=
  if a = "" then b else a ++ "." ++ b

/-- Number of `.` separators in a string. -/
def countDots (s : String) : Nat :=
  s.toList.count '.'

/-! ## `OpenSearchService.getMapping` -/

/-- The `mappings` member of one index's `_mapping` entry. -/
structure MappingsDoc where
  properties : Option (List (String × JProp))

/-- One index entry of the `_mapping` response object. -/
structure IndexDoc where
  mappings : Option MappingsDoc

/-- Outcome of `executeRequest(config, `/${index}/_mapping`)` as `getMapping`
observes it: `failure` is any throw inside `getMapping`'s try block
(transport error, proxy error, non-2xx upstream status, unparsable body);
`success` is the parsed JSON response object, keyed by index name. -/
inductive MappingFetchOutcome where
  | failure (msg : String)
  | success (data : List (String × IndexDoc))

/-- Constant `MOCK_MAPPING["demo-index"].mappings.properties` (services/mockData.ts). -/
def MOCK_MAPPING_properties : List (String × JProp) :=
  [("id", .mk none (some "keyword")),
   ("name", .mk none (some "text")),
   ("description", .mk none (some "text")),
   ("status", .mk none (some "keyword")),
   ("timestamp", .mk none (some "date")),
   ("location", .mk none (some "geo_point")),
   ("metadata", .mk (some
      [("host", .mk none (some "keyword")),
       ("latency_ms", .mk none (some "integer")),
       ("tags", .mk none (some "keyword"))]) none)]

/-- The hard-coded fallback of `getMapping`'s catch block. -/
def fallbackFields : List FieldDefinition :=
  [⟨"id", some "keyword"⟩, ⟨"timestamp", some "date"⟩]

/-- Function `OpenSearchService.getMapping`: demo mode flattens the mock mapping;
otherwise the fetched response's first index entry is drilled into with
`data[indexName]?.mappings?.properties || {}` and flattened, and any error
is swallowed into the fixed fallback list. -/
def getMapping (config : OpenSearchConfig) (outcome : MappingFetchOutcome) :
    List FieldDefinition :=
  if config.useDemoMode then flattenMapping MOCK_MAPPING_properties ""
  else
    match outcome with
    | .failure _ => fallbackFields
    | .success data =>
      let properties :=
        match data.head? with
        | some (_, doc) => ((doc.mappings.bind (·.properties)).getD [])
        | none => []
      flattenMapping properties ""

/-! ### Flattener correctness -/

theorem flattenMapping_eq_leavesSpec (props : List (String × JProp)) (pfx : String) :
    flattenMapping props pfx =
      (leavesSpec props).map (fun p => ⟨p.1.foldl joinDot pfx, p.2⟩) := by
  induction props, pfx using flattenMapping.induct with
  | case1 pfx => simp [flattenMapping, leavesSpec]
  | case2 key props ty rest pfx path ih1 ih2 =>
    cases props with
    | none =>
      simp only [flattenMapping, leavesSpec, List.map_append, List.map_cons, List.map_nil,
        List.singleton_append, ih2]
      rfl
    | some children =>
      have ih1' : flattenMapping children (joinDot pfx key) =
          List.map (fun p => (⟨List.foldl joinDot (joinDot pfx key) p.1, p.2⟩ : FieldDefinition))
            (leavesSpec children) := ih1
      simp only [flattenMapping, leavesSpec, List.map_append, List.map_map]
      rw [show (if pfx = "" then key else pfx ++ "." ++ key) = joinDot pfx key from rfl, ih1', ih2]
      rfl

theorem countDots_append (s t : String) :
    countDots (s ++ t) = countDots s + countDots t := by
  simp [countDots, String.toList, String.data_append, List.count_append]

theorem joinDot_ne_empty (a b : String) (ha : a ≠ "") : joinDot a b ≠ "" := by
  intro h
  rw [joinDot, if_neg ha] at h
  have hlen := congrArg String.length h
  rw [String.length_append, String.length_append] at hlen
  have h1 : (".").length = 1 := rfl
  have h0 : ("" : String).length = 0 := rfl
  omega

theorem countDots_joinDot (a b : String) (ha : a ≠ "") :
    countDots (joinDot a b) = countDots a + countDots b + 1 := by
  have hdot : countDots "." = 1 := by decide
  rw [joinDot, if_neg ha, countDots_append, countDots_append, hdot]
  omega

theorem countDots_foldl (ks : List String) (a : String) (ha : a ≠ "")
    (hk : ∀ k ∈ ks, countDots k = 0) :
    countDots (ks.foldl joinDot a) = countDots a + ks.length := by
  induction ks generalizing a with
  | nil => simp
  | cons k t ih =>
    simp only [List.foldl_cons, List.length_cons]
    rw [ih (joinDot a k) (joinDot_ne_empty a k ha) (fun x hx => hk x (by simp [hx])),
      countDots_joinDot a k ha, hk k (by simp)]
    omega

theorem leavesSpec_ancestry_ne_nil (props : List (String × JProp)) :
    ∀ p ∈ leavesSpec props, p.1 ≠ [] := by
  induction props using leavesSpec.induct with
  | case1 => simp [leavesSpec]
  | case2 key props ty rest ih1 ih2 =>
    cases props with
    | none =>
      intro p hp
      simp only [leavesSpec, List.singleton_append, List.mem_cons] at hp
      rcases hp with h | h
      · simp [h]
      · exact ih2 p h
    | some children =>
      intro p hp
      simp only at ih1
      simp only [leavesSpec, List.mem_append, List.mem_map] at hp
      rcases hp with ⟨q, _, rfl⟩ | h
      · simp
      · exact ih2 p h

/-- C9 counterexample: as stated, the depth/dot-separator consequence fails.
A flat (depth-1) schema whose single key is `"a.b"` yields the path `"a.b"`
with one dot, not zero; and a depth-2 leaf under the empty key `""` yields
the path `"a"` with zero dots, not one. -/
theorem flattenMapping_depth_counterexample :
    (flattenMapping [("a.b", JProp.mk none (some "keyword"))] "" =
        [⟨"a.b", some "keyword"⟩] ∧ countDots "a.b" = 1) ∧
    (flattenMapping [("", JProp.mk (some [("a", JProp.mk none (some "keyword"))]) none)] "" =
        [⟨"a", some "keyword"⟩] ∧ countDots "a" = 0) :=
  ⟨⟨by simp [flattenMapping], by decide⟩, ⟨by simp [flattenMapping], by decide⟩⟩

/-- C9 (amended): for every tree-shaped schema, the flattener emits exactly
the leaves in traversal order, each with its full dotted ancestry as path;
and provided every ancestry key is non-empty and dot-free, a leaf at
nesting depth N produces a path with exactly N-1 dot separators. -/
theorem flattenMapping_leaves (props : List (String × JProp))
    (hkeys : ∀ p ∈ leavesSpec props, ∀ k ∈ p.1, countDots k = 0 ∧ k ≠ "") :
    flattenMapping props "" =
      (leavesSpec props).map (fun p => ⟨p.1.foldl joinDot "", p.2⟩) ∧
    ∀ p ∈ leavesSpec props, countDots (p.1.foldl joinDot "") + 1 = p.1.length := by
  refine ⟨flattenMapping_eq_leavesSpec props "", fun p hp => ?_⟩
  obtain ⟨k, ks, h1⟩ : ∃ k ks, p.1 = k :: ks := by
    cases hl : p.1 with
    | nil => exact absurd hl (leavesSpec_ancestry_ne_nil props p hp)
    | cons k ks => exact ⟨k, ks, rfl⟩
  have hk := hkeys p hp
  rw [h1] at hk ⊢
  have hkhead := hk k (by simp)
  have hjoin : joinDot "" k = k := by simp [joinDot]
  rw [List.foldl_cons, hjoin,
    countDots_foldl ks k hkhead.2 (fun x hx => (hk x (by simp [hx])).1), hkhead.1]
  simp

/-- C9 witness: a two-level schema with well-formed keys. -/
theorem flattenMapping_leaves_witness :
    let props : List (String × JProp) :=
      [("metadata", JProp.mk (some [("host", JProp.mk none (some "keyword"))]) none),
       ("status", JProp.mk none (some "keyword"))]
    flattenMapping props "" =
      (leavesSpec props).map (fun p => ⟨p.1.foldl joinDot "", p.2⟩) ∧
    ∀ p ∈ leavesSpec props, countDots (p.1.foldl joinDot "") + 1 = p.1.length :=
  flattenMapping_leaves _ (by
    intro p hp
    simp only [leavesSpec, List.map_cons, List.map_nil, List.singleton_append,
      List.nil_append, List.append_nil, List.mem_cons, List.mem_singleton,
      List.not_mem_nil, or_false] at hp
    rcases hp with rfl | rfl <;> decide)

/-! ## Service Classifier (server.ts, `POST /api/proxy`)

`const service = url.includes('aoss.amazonaws.com') ? 'aoss' : 'es';`
-/

def classifyService (url : String) : String :=
  if jsIncludes url "aoss.amazonaws.com" then "aoss" else "es"

/-- Everything after the first `://` (the whole list if there is none).
Claim-side helper for talking about a URL's hostname. -/
def afterSchemeSep : List Char → List Char
  | [] => []
  | ':' :: '/' :: '/' :: rest => rest
  | _ :: rest => afterSchemeSep rest

/-- The hostname of a URL: text after `://` up to the first `/`, `?` or
`#`, with userinfo (up to the last `@`) and port (after `:`) stripped.
Used only to state the claim; the source never extracts a hostname. -/
def urlHostname (url : String) : String :=
  let hostPort := (afterSchemeSep url.toList).takeWhile
    (fun c => !(c = '/' || c = '?' || c = '#'))
  let afterUser := (hostPort.reverse.takeWhile (fun c => c ≠ '@')).reverse
  ⟨afterUser.takeWhile (fun c => c ≠ ':')⟩

theorem dropWhile_isSuffix {α : Type} (p : α → Bool) (l : List α) :
    l.dropWhile p <:+ l := by
  induction l with
  | nil => exact List.suffix_refl _
  | cons a t ih =>
    by_cases h : p a
    · simp only [List.dropWhile_cons, h, if_true]
      exact ih.trans (List.suffix_cons a t)
    · simp [List.dropWhile_cons, h]

theorem afterSchemeSep_isSuffix (l : List Char) : afterSchemeSep l <:+ l := by
  induction l using afterSchemeSep.induct with
  | case1 => exact List.suffix_refl _
  | case2 rest =>
    simp only [afterSchemeSep]
    exact ⟨[':', '/', '/'], rfl⟩
  | case3 c rest h ih =>
    simp only [afterSchemeSep]
    exact ih.trans (List.suffix_cons c rest)

/-- The extracted hostname occurs inside the URL string. -/
theorem urlHostname_isInfix (url : String) :
    (urlHostname url).toList <:+: url.toList := by
  unfold urlHostname
  have h1 : afterSchemeSep url.toList <:+ url.toList := afterSchemeSep_isSuffix _
  have h2 := List.takeWhile_prefix
    (l := afterSchemeSep url.toList) (fun c => !(c = '/' || c = '?' || c = '#'))
  have h3 : ((((afterSchemeSep url.toList).takeWhile
        (fun c => !(c = '/' || c = '?' || c = '#'))).reverse.takeWhile
        (fun c => c ≠ '@')).reverse) <:+
      ((afterSchemeSep url.toList).takeWhile (fun c => !(c = '/' || c = '?' || c = '#'))) := by
    rw [← List.reverse_prefix]
    simpa using List.takeWhile_prefix (fun c => c ≠ '@')
  have h4 := List.takeWhile_prefix
    (l := ((((afterSchemeSep url.toList).takeWhile
      (fun c => !(c = '/' || c = '?' || c = '#'))).reverse.takeWhile
      (fun c => c ≠ '@')).reverse)) (fun c => c ≠ ':')
  exact h4.isInfix.trans (h3.isInfix.trans (h2.isInfix.trans h1.isInfix))

/-- A substring (as a character-list infix) makes `jsIncludes` true. -/
theorem jsIncludes_of_infix {s t : String} (h : t.toList <:+: s.toList) :
    jsIncludes s t = true := by
  obtain ⟨pre, post, hsplit⟩ := h
  have hlen : pre.length ≤ s.length := by
    have := congrArg List.length hsplit
    simp [List.length_append] at this
    have hsl : s.length = s.toList.length := rfl
    omega
  rw [jsIncludes, List.any_eq_true]
  refine ⟨pre.length, List.mem_range.mpr (by omega), ?_⟩
  have hdrop : s.toList.drop pre.length = t.toList ++ post := by
    rw [← hsplit]
    rw [show pre ++ t.toList ++ post = pre ++ (t.toList ++ post) from by simp,
      List.drop_left]
  rw [hdrop, List.take_left']
  · exact decide_eq_true rfl
  · rfl

/-- C4 counterexample: on `"https://example.com/aoss.amazonaws.com"` the
hostname is `example.com`, which does not end in the collection-service
suffix, yet the classifier returns `"aoss"` (the claim requires `"es"`),
because it tests substring containment over the whole URL. -/
theorem classifyService_counterexample :
    classifyService "https://example.com/aoss.amazonaws.com" = "aoss" ∧
    urlHostname "https://example.com/aoss.amazonaws.com" = "example.com" ∧
    "aoss.amazonaws.com".toList.isSuffixOf "example.com".toList = false ∧
    "aoss" ≠ "es" := by
  refine ⟨by decide, ?_, by decide, by decide⟩
  decide

/-- C4 (amended): the classifier returns `"aoss"` exactly when the URL
string contains `"aoss.amazonaws.com"` as a substring — in particular
whenever the URL's hostname ends in that suffix — and `"es"` otherwise. -/
theorem classifyService_contains (url : String) :
    (classifyService url = "aoss" ↔ jsIncludes url "aoss.amazonaws.com" = true) ∧
    (classifyService url = "es" ↔ jsIncludes url "aoss.amazonaws.com" = false) ∧
    ("aoss.amazonaws.com".toList.isSuffixOf (urlHostname url).toList = true →
      classifyService url = "aoss") := by
  refine ⟨?_, ?_, fun h => ?_⟩
  · unfold classifyService
    by_cases hi : jsIncludes url "aoss.amazonaws.com" = true <;> simp [hi]
  · unfold classifyService
    by_cases hi : jsIncludes url "aoss.amazonaws.com" = true <;> simp [hi]
  · have hsuf : "aoss.amazonaws.com".toList <:+ (urlHostname url).toList :=
      List.isSuffixOf_iff_suffix.mp h
    have : "aoss.amazonaws.com".toList <:+: url.toList :=
      hsuf.isInfix.trans (urlHostname_isInfix url)
    simp [classifyService, jsIncludes_of_infix this]

/-- C4 witness: a serverless collection endpoint URL whose hostname ends in
the suffix is classified `"aoss"`. -/
theorem classifyService_contains_witness :
    "aoss.amazonaws.com".toList.isSuffixOf
        (urlHostname "https://abc123.us-east-1.aoss.amazonaws.com/idx/_search").toList = true ∧
    classifyService "https://abc123.us-east-1.aoss.amazonaws.com/idx/_search" = "aoss" :=
  ⟨by decide, (classifyService_contains _).2.2 (by decide)⟩

/-- C10: the mapping boundary never surfaces an error — for every
non-demo connection profile, a failed mapping fetch (or parse) resolves
successfully with the fixed fallback field list, and some genuine mapping
response produces exactly the same list, so the caller cannot tell the two
apart. -/
theorem getMapping_fallback_on_failure (config : OpenSearchConfig) (msg : String)
    (h : config.useDemoMode = false) :
    getMapping config (.failure msg) =
      [⟨"id", some "keyword"⟩, ⟨"timestamp", some "date"⟩] ∧
    ∃ data, getMapping config (.success data) =
      [⟨"id", some "keyword"⟩, ⟨"timestamp", some "date"⟩] := by
  constructor
  · simp [getMapping, h, fallbackFields]
  · refine ⟨[("my-index", ⟨some ⟨some [("id", .mk none (some "keyword")),
      ("timestamp", .mk none (some "date"))]⟩⟩)], ?_⟩
    simp [getMapping, h, flattenMapping]

/-- C10 witness: a concrete non-demo profile and failure message. -/
theorem getMapping_fallback_on_failure_witness :
    let cfg : OpenSearchConfig :=
      ⟨["http://localhost:9200"], "us-east-1", .manual, "AK", "SK", none, none,
        "logs-v1", false, none⟩
    getMapping cfg (.failure "connect ECONNREFUSED") =
      [⟨"id", some "keyword"⟩, ⟨"timestamp", some "date"⟩] ∧
    ∃ data, getMapping cfg (.success data) =
      [⟨"id", some "keyword"⟩, ⟨"timestamp", some "date"⟩] :=
  getMapping_fallback_on_failure _ _ rfl

/-! ## Execution Gateway

Client side: `OpenSearchService.executeRequest` (services/opensearchService.ts)
posts a payload to the proxy and classifies the proxy's reply.  Server side:
the `POST /api/proxy` handler (server.ts) resolves credentials, signs, sends
to the target node and wraps the node's response.  The network is a
scenario parameter `world : String → NodeOutcome` mapping a target URL to
what contacting that node yields; the local credential-profile store is a
parameter `ini`.  The parsed JSON body of a node response is abstracted to
the projections the code reads (`data?.error`, `data?.message`,
`JSON.stringify(data)`). -/

/-- Projections of a parsed JSON body that `executeRequest` inspects. -/
structure UpstreamBody where
  errorField : Option String
  messageField : Option String
  rendered : String
  deriving DecidableEq, Repr

/-- What contacting a node URL yields: a transport-level failure with no
response at all, or a received HTTP response with status, raw text, and the
parsed JSON body (`none` when the text is not valid JSON). -/
inductive NodeOutcome where
  | transportError (msg : String)
  | response (status : Nat) (text : String) (parsed : Option UpstreamBody)
  deriving DecidableEq, Repr

/-- Manual credentials as sent in the proxy payload. -/
structure ManualCreds where
  accessKey : String
  secretKey : String
  sessionToken : Option String
  deriving DecidableEq, Repr

/-- The request body `executeRequest` posts to the proxy (the fields the
proxy dispatches on). -/
structure ProxyPayload where
  url : String
  profile : Option String
  credentials : Option ManualCreds
  deriving DecidableEq, Repr

/-- Result of the proxy's credential-resolution block. -/
inductive CredOutcome where
  | resolved
  | failed (msg : String)
  | anonymous
  deriving DecidableEq, Repr

/-- Fall-through of the proxy's credential block:
`else if (credentials && credentials.accessKey) ... else undefined`. -/
def credsFromManual (credentials : Option ManualCreds) : CredOutcome :=
  match credentials with
  | some mc => if mc.accessKey ≠ "" then .resolved else .anonymous
  | none => .anonymous

/-- Credential resolution of `POST /api/proxy` and `POST /api/aws-discovery`:
`if (profile) fromIni({profile}) else if (credentials && credentials.accessKey) ...`;
a throw from the profile store is the catch-block case. -/
def resolveCreds (profile? : Option String) (creds? : Option ManualCreds)
    (ini : String → Except String Unit) : CredOutcome :=
  match profile? with
  | some p =>
    if p ≠ "" then
      match ini p with
      | .ok _ => .resolved
      | .error m => .failed m
    else credsFromManual creds?
  | none => credsFromManual creds?

/-- Standard HTTP reason phrases for the statuses the proxy can set
(surfaced to the client as `res.statusText`). -/
def statusTextOf (status : Nat) : String :=
  if status = 400 then "Bad Request"
  else if status = 401 then "Unauthorized"
  else if status = 403 then "Forbidden"
  else if status = 500 then "Internal Server Error"
  else ""

/-- Minimal JSON string escaping for proxy-constructed bodies. -/
def jsonEscape (s : String) : String :=
  ⟨s.toList.foldr (fun c acc =>
     if c = '"' ∨ c = '\\' then '\\' :: c :: acc
     else if c = '\n' then '\\' :: 'n' :: acc
     else c :: acc) []⟩

/-- Body the proxy substitutes for a received 401/403:
`{ error: "Authentication Failed", details: text }`. -/
def authFailedBody (details : String) : UpstreamBody :=
  { errorField := some "Authentication Failed"
    messageField := none
    rendered := "\x7b\"error\":\"Authentication Failed\",\"details\":\""
      ++ jsonEscape details ++ "\"\x7d" }

/-- Body the proxy substitutes when the node's reply is not JSON:
`{ text }`. -/
def textWrapBody (text : String) : UpstreamBody :=
  { errorField := none
    messageField := none
    rendered := "\x7b\"text\":\"" ++ jsonEscape text ++ "\"\x7d" }

/-- Unsigned branch's substitute for an unparsable body: `{}`. -/
def emptyObjBody : UpstreamBody :=
  { errorField := none, messageField := none, rendered := "\x7b\x7d" }

/-- The proxy's HTTP reply as the client sees it: either a non-2xx proxy
status (client throws `Proxy unreachable`), or the proxy's 200 JSON body
`{ status, data }`. -/
inductive ProxyHttpResponse where
  | httpError (status : Nat) (statusText : String)
  | okJson (status : Nat) (data : UpstreamBody)
  deriving DecidableEq, Repr

/-- The `POST /api/proxy` handler (server.ts).  A transport failure of the
signed or unsigned fetch is caught and becomes a proxy 500; a received
401/403 is wrapped as an Authentication Failed body and returned with proxy
status 200. -/
def proxyHandle (payload : ProxyPayload) (ini : String → Except String Unit)
    (world : String → NodeOutcome) : ProxyHttpResponse :=
  if payload.url = "" then .httpError 400 (statusTextOf 400)
  else
    match resolveCreds payload.profile payload.credentials ini with
    | .failed _ => .httpError 403 (statusTextOf 403)
    | .resolved =>
      match world payload.url with
      | .transportError _ => .httpError 500 (statusTextOf 500)
      | .response st text parsed =>
        if st = 403 ∨ st = 401 then .okJson st (authFailedBody text)
        else .okJson st (parsed.getD (textWrapBody text))
    | .anonymous =>
      match world payload.url with
      | .transportError _ => .httpError 500 (statusTextOf 500)
      | .response st _text parsed => .okJson st (parsed.getD emptyObjBody)

/-- JS `node.replace(/\/$/, '')`: drop one trailing slash. -/
def stripTrailingSlash (s : String) : String :=
  match s.toList.reverse with
  | '/' :: rest => ⟨rest.reverse⟩
  | _ => s

/-- JS `path.startsWith('/') ? path : '/' + path`. -/
def ensureLeadingSlash (p : String) : String :=
  if p.toList.head? = some '/' then p else "/" ++ p

/-- Target URL for the first node: `${node}${cleanPath}`. -/
def mkTargetUrl (node path : String) : String :=
  stripTrailingSlash node ++ ensureLeadingSlash path

/-- The payload `executeRequest` builds: the profile name when
`authType === 'profile' && config.profile`, else manual credentials when
`authType === 'manual'`, else neither. -/
def mkPayload (config : OpenSearchConfig) (targetUrl : String) : ProxyPayload :=
  if config.authType = .profile ∧ config.profile.getD "" ≠ "" then
    { url := targetUrl, profile := config.profile, credentials := none }
  else if config.authType = .manual then
    { url := targetUrl, profile := none
      credentials := some ⟨config.accessKey, config.secretKey, config.sessionToken⟩ }
  else
    { url := targetUrl, profile := none, credentials := none }

/-- JS truthiness filter on an optional string field. -/
def jsTruthyStr : Option String → Option String
  | some s => if s ≠ "" then some s else none
  | none => none

/-- The client's error message for a proxied status ≥ 300:
`result.data?.error || result.data?.message || JSON.stringify(result.data) || 'Unknown Error'`. -/
def upstreamErrMsg (d : UpstreamBody) : String :=
  match jsTruthyStr d.errorField with
  | some e => e
  | none =>
    match jsTruthyStr d.messageField with
    | some m => m
    | none => if d.rendered ≠ "" then d.rendered else "Unknown Error"

/-- Result of `executeRequest` as its callers observe it. -/
inductive ExecResult where
  | ok (data : UpstreamBody)
  | error (msg : String)
  deriving DecidableEq, Repr

/-- Function `OpenSearchService.executeRequest` (services/opensearchService.ts),
paired with the list of node URLs contacted during the call.  Only
`nodes[0]` is ever used (`// For this implementation, we try node 0.`). -/
def executeRequest (config : OpenSearchConfig) (path : String)
    (ini : String → Except String Unit) (world : String → NodeOutcome) :
    ExecResult × List String :=
  if config.nodes.isEmpty then (.error "No OpenSearch nodes configured.", [])
  else
    match proxyHandle (mkPayload config (mkTargetUrl (config.nodes.headD "") path))
        ini world with
    | .httpError _ statusText =>
      (.error ("Proxy unreachable: " ++ statusText),
        [mkTargetUrl (config.nodes.headD "") path])
    | .okJson st data =>
      if 300 ≤ st then
        (.error ("OpenSearch Error (" ++ toString st ++ "): " ++ upstreamErrMsg data),
          [mkTargetUrl (config.nodes.headD "") path])
      else (.ok data, [mkTargetUrl (config.nodes.headD "") path])

theorem ensureLeadingSlash_ne_empty (p : String) : ensureLeadingSlash p ≠ "" := by
  unfold ensureLeadingSlash
  split
  · rename_i h
    intro he
    rw [he] at h
    simp at h
  · intro he
    have := congrArg String.length he
    rw [String.length_append] at this
    have h1 : ("/").length = 1 := rfl
    have h0 : ("" : String).length = 0 := rfl
    omega

theorem mkTargetUrl_ne_empty (node path : String) : mkTargetUrl node path ≠ "" := by
  unfold mkTargetUrl
  intro he
  have := congrArg String.length he
  rw [String.length_append] at this
  have h0 : ("" : String).length = 0 := rfl
  have h1 : ensureLeadingSlash path ≠ "" := ensureLeadingSlash_ne_empty path
  have h2 : 1 ≤ (ensureLeadingSlash path).length := by
    by_contra hc
    push_neg at hc
    interval_cases hle : (ensureLeadingSlash path).length
    exact h1 (String.ext (List.length_eq_zero.mp hle))
  omega

/-- C2: with at least two configured nodes and resolvable credentials, a
received HTTP 403 from the first node makes the gateway return the
authentication-failure error, and its attempt list is exactly the first
node's URL — the second node is never contacted. -/
theorem executeRequest_auth403_no_failover (config : OpenSearchConfig)
    (path : String) (ini : String → Except String Unit)
    (world : String → NodeOutcome) (node1 node2 : String) (rest : List String)
    (text : String) (parsed : Option UpstreamBody)
    (hnodes : config.nodes = node1 :: node2 :: rest)
    (hcred : resolveCreds (mkPayload config (mkTargetUrl node1 path)).profile
      (mkPayload config (mkTargetUrl node1 path)).credentials ini = .resolved)
    (hresp : world (mkTargetUrl node1 path) = .response 403 text parsed) :
    executeRequest config path ini world =
      (.error ("OpenSearch Error (403): Authentication Failed"),
        [mkTargetUrl node1 path]) := by
  have hurl : (mkPayload config (mkTargetUrl node1 path)).url = mkTargetUrl node1 path := by
    unfold mkPayload
    split
    · rfl
    · split <;> rfl
  unfold executeRequest
  rw [hnodes]
  simp only [List.isEmpty_cons, List.headD_cons, if_false, Bool.false_eq_true]
  unfold proxyHandle
  rw [hurl, if_neg (mkTargetUrl_ne_empty node1 path), hcred, hresp]
  simp [upstreamErrMsg, jsTruthyStr, authFailedBody]
  decide

/-- C2 witness: two nodes, manual credentials, node 1 answering 403. -/
theorem executeRequest_auth403_no_failover_witness :
    let cfg : OpenSearchConfig :=
      ⟨["http://n1", "http://n2"], "us-east-1", .manual, "AK", "SK", none, none,
        "idx", false, some "/api/proxy"⟩
    let ini : String → Except String Unit := fun _ => .error "no profile store"
    let world : String → NodeOutcome := fun _ =>
      .response 403 "User is not authorized" none
    executeRequest cfg "/idx/_search" ini world =
      (.error ("OpenSearch Error (403): Authentication Failed"),
        [mkTargetUrl "http://n1" "/idx/_search"]) :=
  executeRequest_auth403_no_failover _ _ _ _ "http://n1" "http://n2" []
    "User is not authorized" none rfl (by decide) rfl

/-- C3 counterexample: two nodes, node 1 transport-fails, node 2 would
answer HTTP 200 with a JSON body, yet the gateway surfaces a proxy error,
contacts only node 1, and does not return node 2's parsed body. -/
theorem executeRequest_transport_no_failover_counterexample :
    let cfg : OpenSearchConfig :=
      ⟨["http://n1", "http://n2"], "us-east-1", .manual, "AK", "SK", none, none,
        "idx", false, some "/api/proxy"⟩
    let ini : String → Except String Unit := fun _ => .error "no profile store"
    let body2 : UpstreamBody := ⟨none, none, "\x7b\"took\":1\x7d"⟩
    let world : String → NodeOutcome := fun u =>
      if u = "http://n1/idx/_search" then .transportError "connect ECONNREFUSED"
      else .response 200 "\x7b\"took\":1\x7d" (some body2)
    executeRequest cfg "/idx/_search" ini world =
      (.error "Proxy unreachable: Internal Server Error", ["http://n1/idx/_search"]) ∧
    world "http://n2/idx/_search" = .response 200 "\x7b\"took\":1\x7d" (some body2) ∧
    (ExecResult.error "Proxy unreachable: Internal Server Error") ≠ .ok body2 := by
  refine ⟨by decide, by decide, by decide⟩

/-- C3 (amended): the gateway contacts only the first configured node — on
a transport-level failure of node 1 it returns an error without attempting
node 2, regardless of what node 2 would answer. -/
theorem executeRequest_transport_error_first_node_only (config : OpenSearchConfig)
    (path : String) (ini : String → Except String Unit)
    (world : String → NodeOutcome) (m : String)
    (hne : config.nodes ≠ [])
    (hfail : world (mkTargetUrl (config.nodes.headD "") path) = .transportError m) :
    ∃ e, executeRequest config path ini world =
      (.error e, [mkTargetUrl (config.nodes.headD "") path]) := by
  have hurl : (mkPayload config (mkTargetUrl (config.nodes.headD "") path)).url =
      mkTargetUrl (config.nodes.headD "") path := by
    unfold mkPayload
    split
    · rfl
    · split <;> rfl
  unfold executeRequest
  rw [if_neg (by simpa using hne)]
  unfold proxyHandle
  rw [hurl, if_neg (mkTargetUrl_ne_empty _ path)]
  cases hcred : resolveCreds (mkPayload config (mkTargetUrl (config.nodes.headD "") path)).profile
      (mkPayload config (mkTargetUrl (config.nodes.headD "") path)).credentials ini with
  | resolved => rw [hfail]; exact ⟨_, rfl⟩
  | failed msg => exact ⟨_, rfl⟩
  | anonymous => rw [hfail]; exact ⟨_, rfl⟩

/-- C3 amended-claim witness: concrete two-node profile with node 1 down. -/
theorem executeRequest_transport_error_first_node_only_witness :
    let cfg : OpenSearchConfig :=
      ⟨["http://n1", "http://n2"], "us-east-1", .manual, "AK", "SK", none, none,
        "idx", false, some "/api/proxy"⟩
    let ini : String → Except String Unit := fun _ => .error "no profile store"
    let world : String → NodeOutcome := fun u =>
      if u = "http://n1/idx/_search" then .transportError "connect ECONNREFUSED"
      else .response 200 "ok" none
    ∃ e, executeRequest cfg "/idx/_search" ini world =
      (.error e, [mkTargetUrl ((["http://n1", "http://n2"] : List String).headD "") "/idx/_search"]) :=
  executeRequest_transport_error_first_node_only _ _ _ _ "connect ECONNREFUSED"
    (by decide) (by decide)

/-! ## Discovery Client (server.ts, `POST /api/aws-discovery`) -/

/-- One entry of the control plane's `collectionSummaries`. -/
structure CollectionSummary where
  name : String
  id : String
  deriving DecidableEq, Repr

/-- The parsed ListCollections response body; `collectionSummaries` may be
absent. -/
structure ListCollectionsBody where
  collectionSummaries : Option (List CollectionSummary)
  deriving DecidableEq, Repr

/-- A collection record as returned to the caller. -/
structure CollectionRecord where
  name : String
  id : String
  endpoint : String
  deriving DecidableEq, Repr

/-- Outcome of the signed control-plane fetch: transport failure, or a
received response with status, raw text, and parsed JSON body (`none` when
the body is not valid JSON, in which case `response.json()` throws). -/
inductive ControlPlaneOutcome where
  | transportError (msg : String)
  | response (status : Nat) (text : String) (parsed : Option ListCollectionsBody)
  deriving DecidableEq, Repr

/-- Reply of the discovery endpoint: a successful (possibly empty)
collections list, or a typed error with HTTP status and message. -/
inductive DiscoveryResult where
  | collections (records : List CollectionRecord)
  | errorResp (status : Nat) (message : String)
  deriving DecidableEq, Repr

/-- The `POST /api/aws-discovery` handler (server.ts): resolve credentials
(403 on store failure, 401 when absent), sign and send ListCollections, map
a non-ok status or any throw to a 500-errored reply, and map the summaries
(`data.collectionSummaries || []`) to records with the endpoint synthesized
as `https://{id}.{region}.aoss.amazonaws.com`. -/
def awsDiscovery (region : Option String) (profile? : Option String)
    (creds? : Option ManualCreds) (ini : String → Except String Unit)
    (upstream : ControlPlaneOutcome) : DiscoveryResult :=
  let awsRegion :=
    match region with
    | some r => if r ≠ "" then r else "us-east-1"
    | none => "us-east-1"
  match resolveCreds profile? creds? ini with
  | .failed _ => .errorResp 403 "Credential Error"
  | .anonymous => .errorResp 401 "No credentials provided"
  | .resolved =>
    match upstream with
    | .transportError m => .errorResp 500 m
    | .response st text parsed =>
      if ¬ (200 ≤ st ∧ st ≤ 299) then
        .errorResp 500 ("AWS API Error (" ++ toString st ++ "): " ++ text)
      else
        match parsed with
        | none => .errorResp 500 "Unexpected end of JSON input"
        | some body =>
          .collections ((body.collectionSummaries.getD []).map fun c =>
            { name := c.name, id := c.id,
              endpoint := "https://" ++ c.id ++ "." ++ awsRegion ++ ".aoss.amazonaws.com" })

/-- C8: the Discovery Client distinguishes "zero collections found" from
"the request could not be made": a 2xx response whose summary list is
absent or empty yields the successful empty `collections` reply, while a
credential failure, missing credentials, transport failure, non-2xx status
or unparsable body each yield a typed error reply — and an error reply is
never the empty success. -/
theorem awsDiscovery_empty_vs_error (region profile? : Option String)
    (creds? : Option ManualCreds) (ini : String → Except String Unit)
    (upstream : ControlPlaneOutcome) (st : Nat) (text m failMsg : String)
    (parsed : Option ListCollectionsBody) :
    (resolveCreds profile? creds? ini = .resolved →
      awsDiscovery region profile? creds? ini (.response 200 text (some ⟨none⟩)) =
        .collections [] ∧
      awsDiscovery region profile? creds? ini (.response 200 text (some ⟨some []⟩)) =
        .collections []) ∧
    (resolveCreds profile? creds? ini = .resolved →
      awsDiscovery region profile? creds? ini (.transportError m) = .errorResp 500 m) ∧
    (resolveCreds profile? creds? ini = .resolved → ¬ (200 ≤ st ∧ st ≤ 299) →
      ∃ e, awsDiscovery region profile? creds? ini (.response st text parsed) =
        .errorResp 500 e) ∧
    (resolveCreds profile? creds? ini = .resolved →
      awsDiscovery region profile? creds? ini (.response 200 text none) =
        .errorResp 500 "Unexpected end of JSON input") ∧
    (resolveCreds profile? creds? ini = .failed failMsg →
      awsDiscovery region profile? creds? ini upstream = .errorResp 403 "Credential Error") ∧
    (resolveCreds profile? creds? ini = .anonymous →
      awsDiscovery region profile? creds? ini upstream = .errorResp 401 "No credentials provided") ∧
    (∀ (records : List CollectionRecord) (s : Nat) (e : String),
      DiscoveryResult.collections records ≠ .errorResp s e) := by
  refine ⟨fun hc => ?_, fun hc => ?_, fun hc hst => ?_, fun hc => ?_,
    fun hc => ?_, fun hc => ?_, fun records s e h => ?_⟩
  · constructor <;> simp [awsDiscovery, hc]
  · simp [awsDiscovery, hc]
  · exact ⟨"AWS API Error (" ++ toString st ++ "): " ++ text,
      by simp [awsDiscovery, hc, hst]⟩
  · simp [awsDiscovery, hc]
  · simp [awsDiscovery, hc]
  · simp [awsDiscovery, hc]
  · exact DiscoveryResult.noConfusion h

/-- C8 witness: manual credentials, a 2xx empty-summaries response, plus
the failure branches at concrete inputs. -/
theorem awsDiscovery_empty_vs_error_witness :
    let ini : String → Except String Unit := fun _ => .error "profile not found"
    let creds? : Option ManualCreds := some ⟨"AK", "SK", none⟩
    (resolveCreds none creds? ini = .resolved →
      awsDiscovery (some "us-east-1") none creds? ini (.response 200 "" (some ⟨none⟩)) =
        .collections [] ∧
      awsDiscovery (some "us-east-1") none creds? ini (.response 200 "" (some ⟨some []⟩)) =
        .collections []) ∧
    (resolveCreds none creds? ini = .resolved →
      awsDiscovery (some "us-east-1") none creds? ini (.transportError "getaddrinfo ENOTFOUND") =
        .errorResp 500 "getaddrinfo ENOTFOUND") ∧
    (resolveCreds none creds? ini = .resolved → ¬ (200 ≤ 403 ∧ 403 ≤ 299) →
      ∃ e, awsDiscovery (some "us-east-1") none creds? ini (.response 403 "denied" none) =
        .errorResp 500 e) ∧
    (resolveCreds none creds? ini = .resolved →
      awsDiscovery (some "us-east-1") none creds? ini (.response 200 "" none) =
        .errorResp 500 "Unexpected end of JSON input") ∧
    (resolveCreds none creds? ini = .failed "profile not found" →
      awsDiscovery (some "us-east-1") none creds? ini (.transportError "x") =
        .errorResp 403 "Credential Error") ∧
    (resolveCreds none creds? ini = .anonymous →
      awsDiscovery (some "us-east-1") none creds? ini (.transportError "x") =
        .errorResp 401 "No credentials provided") ∧
    (∀ (records : List CollectionRecord) (s : Nat) (e : String),
      DiscoveryResult.collections records ≠ .errorResp s e) :=
  awsDiscovery_empty_vs_error (some "us-east-1") none _ _
    (.transportError "x") 403 "denied" "getaddrinfo ENOTFOUND" "profile not found" none

end Navigator
